import Mathlib

/-!
Shallow embedding of the simple-browser-agent core: the Agent class
(step/start loop, action registration, browser helpers), the message
composers, and the utility functions, translated from the TypeScript
source.  Machine-level details that are external I/O (Puppeteer wire
calls, wall-clock timestamps, console logging, the OpenAI transport)
are abstracted: the completion round trip is an input to `stepModel`,
and browser effects act on an explicit `BrowserState`.
-/

/-! ## Utility functions (src utils: getParamNames, sleep, sanitizeHTML) -/

/-- JS `String.indexOf` restricted to a one-character needle: the index of the
first occurrence, or -1 when the character does not occur. -/
def jsIndexOf (cs : List Char) (c : Char) : Int :=
  match cs.findIdx? (· == c) with
  | some i => (i : Int)
  | none => -1

/-- JS `String.slice(start, stop)` on the character list of a string: negative
indices count from the end, and both endpoints are clamped to the string. -/
def jsSlice (cs : List Char) (start stop : Int) : List Char :=
  let n : Int := cs.length
  let st : Int := if start < 0 then max (n + start) 0 else min start n
  let en : Int := if stop < 0 then max (n + stop) 0 else min stop n
  (cs.drop st.toNat).take (en - st).toNat

/-- `getParamNames` from the utils module: take the text of the function
between the first "(" and the first ")" and collect the maximal runs of
characters that are neither whitespace nor a comma (the ARGUMENT_NAMES regex
`([^\s,]+)/g`).  The input is the function's source text after the
STRIP_COMMENTS regex has removed comments. -/
def getParamNames (funcStr : String) : List String :=
  let cs := funcStr.toList
  let inner := jsSlice cs (jsIndexOf cs '(' + 1) (jsIndexOf cs ')')
  ((inner.splitOnP (fun c => c == ',' || c.isWhitespace)).filter (· ≠ [])).map
    List.asString

/-! ## Plan / LLM response data model (Agent.LLMResponse) -/

inductive GoalEval where
  | success
  | fail
  | unknown
deriving DecidableEq, Repr

structure PlanState where
  previousGoalEvaluation : GoalEval
  evaluationReason : String
  memory : String
  nextGoal : String
deriving DecidableEq, Repr

/-- One entry of the plan's `actions` array: a name and an args mapping.
JS objects iterate string keys in insertion order, so the mapping is kept as
an association list in the order the keys appear in the model's JSON. -/
structure PlanAction (α : Type) where
  name : String
  args : List (String × α)
deriving DecidableEq, Repr

/-- `Agent.LLMResponse`: the parsed plan. -/
structure Plan (α : Type) where
  state : PlanState
  actions : List (PlanAction α)
deriving DecidableEq, Repr

/-! ## Browser model -/

/-- One Puppeteer page.  `hidden` is the value of `document.hidden`;
`elements` lists the selectors that `waitForSelector` finds on the page;
`content` is the page content after sanitization (sanitizeHTML is an
external collaborator, so the sanitized text is what the model carries). -/
structure Tab where
  url : String
  title : String
  hidden : Bool
  elements : List String
  content : String
  scrollY : Int
deriving DecidableEq, Repr

structure BrowserState where
  tabs : List Tab
deriving DecidableEq, Repr

/-- The mutable agent state the control loop and the action callbacks touch:
the `_running` flag and the browser session. -/
structure AgentState where
  running : Bool
  browser : BrowserState
deriving DecidableEq, Repr

/-! ## Action registry (Agent.Action, Agent.DefineAction, constructor) -/

/-- Outcome of one callback invocation's promise: resolve with a value or
`undefined` (modelled as `none`), or reject with an error value. -/
inductive CbOutcome (α : Type) where
  | resolved : Option α → CbOutcome α
  | rejected : α → CbOutcome α
deriving DecidableEq, Repr

/-- `{success, result}` as collected per invocation in `Agent.step`. -/
structure InvRes (α : Type) where
  success : Bool
  result : Option α
deriving DecidableEq, Repr

/-- `Agent.Action`: parameter descriptors `{name, type}` (from getParamNames
and the reflected parameter types), the prompt description, and the callback.
The callback acts on the agent state and yields a promise outcome. -/
structure ActionRT (α : Type) where
  args : List (String × String)
  description : String
  callback : List α → AgentState → AgentState × CbOutcome α

/-- The instance-level `actions` map, as a lookup function. -/
abbrev Registry (α : Type) := String → Option (ActionRT α)

/-! ## Argument binding (Agent.step line: callback.bind(this, ...Object.values(args))) -/

/-- JS `Object.values` on the plan's args mapping: the values in key
insertion order. -/
def objectValues {α : Type} (args : List (String × α)) : List α :=
  args.map Prod.snd

/-- The argument list actually handed to an action callback by `Agent.step`:
`action.callback.bind(this, ...Object.values(args))()` spreads the plan args'
values in the order their keys appear in the plan's args mapping. -/
def callbackArgValues {α : Type} (pa : PlanAction α) : List α :=
  objectValues pa.args

/-- The binding described by the specification, for comparison with
`callbackArgValues`: arguments mapped positionally according to the action's
declared parameter order, looking each declared parameter name up in the
plan's args mapping.  This definition follows the spec's words, not the
code. -/
def specDeclaredOrderBinding {α : Type} (params : List String)
    (args : List (String × α)) : Option (List α) :=
  params.mapM (fun p => (args.find? (fun kv => kv.1 = p)).map Prod.snd)

/-- `result ?? null` packaging of a settled callback promise into
`{success, result}` (the `.then`/`.catch` pair in `Agent.step`). -/
def toInvRes {α : Type} : CbOutcome α → InvRes α
  | .resolved v => ⟨true, v⟩
  | .rejected e => ⟨false, some e⟩

/-- Run one resolved action: apply the callback to the spread arg values and
package the settled promise. -/
def runCallback {α : Type} (act : ActionRT α) (pa : PlanAction α)
    (s : AgentState) : AgentState × InvRes α :=
  ((act.callback (objectValues pa.args) s).1,
   toInvRes (act.callback (objectValues pa.args) s).2)

/-! ## Browser helpers (Agent.getCurrentPage, selectElementHandle, actions) -/

/-- Outcome of a browser call: a value, or a rejected promise carrying an
error message. -/
inductive JsResult (α : Type) where
  | ok : α → JsResult α
  | err : String → JsResult α
deriving DecidableEq, Repr

def JsResult.isErr {α : Type} : JsResult α → Bool
  | .ok _ => false
  | .err _ => true

/-- `Agent.getCurrentPage`: await every page's visibility probe
(`waitForSelector("html")` then `!document.hidden`, `false` on error), keep
the pages that reported visible, and take the first one, or null. -/
def getCurrentPage (b : BrowserState) : Option Tab :=
  b.tabs.find? (fun t => !t.hidden)

/-- An element handle, identified by the selector that produced it. -/
structure ElemHandle where
  selector : String
deriving DecidableEq, Repr

/-- `Agent.selectElementHandle`: on the current page, wait for the selector
with a 1000ms timeout.  When there is no current page the optional chain
short-circuits to `?? null`; when the page exists but the selector never
appears, `waitForSelector` rejects with a timeout error. -/
def selectElementHandle (b : BrowserState) (sel : String) :
    JsResult (Option ElemHandle) :=
  match getCurrentPage b with
  | none => .ok none
  | some t =>
      if t.elements.contains sel then .ok (some ⟨sel⟩)
      else .err ("Waiting for selector `" ++ sel ++ "` failed")

/-- `Agent.clickElement`: `selectElementHandle(selector).then(eh => eh?.click())`.
A null handle makes the click a no-op. -/
def clickElement (b : BrowserState) (sel : String) : JsResult Unit :=
  match selectElementHandle b sel with
  | .ok _ => .ok ()
  | .err e => .err e

/-- `Agent.sendKey`: `selectElementHandle(selector).then(eh => eh?.press(key))`.
A null handle makes the key press a no-op. -/
def sendKey (b : BrowserState) (sel : String) (key : String) : JsResult Unit :=
  match selectElementHandle b sel with
  | .ok _ => .ok ()
  | .err e => .err e

/-- `Agent.inputText`: select the element; if the handle is null, throw
`Element ${selector} not found`; otherwise clear, click and type. -/
def inputText (b : BrowserState) (sel : String) (value : String) :
    JsResult Unit :=
  match selectElementHandle b sel with
  | .err e => .err e
  | .ok none => .err ("Element " ++ sel ++ " not found")
  | .ok (some _) => .ok ()

/-- Replace the first visible tab by `f` of it (the page
`window.scrollBy` runs on). -/
def updateFirstVisible (f : Tab → Tab) : List Tab → List Tab
  | [] => []
  | t :: ts => if !t.hidden then f t :: ts else t :: updateFirstVisible f ts

/-- `Agent.scroll`: `getCurrentPage().then(p => p?.evaluate(scrollBy))` —
scrolls the current page when there is one, otherwise does nothing; the call
itself always resolves. -/
def scroll (b : BrowserState) (amount : Int) : BrowserState × JsResult Unit :=
  match getCurrentPage b with
  | none => (b, .ok ())
  | some _ =>
      (⟨updateFirstVisible (fun t => { t with scrollY := t.scrollY + amount })
          b.tabs⟩,
       .ok ())

/-- The sanitized content read in `getCurrentBrowserState`:
`page?.content().then(sanitizeHTML) ?? ""`. -/
def pageContent (b : BrowserState) : String :=
  ((getCurrentPage b).map (fun t => t.content)).getD ""

/-! ## Browser state snapshot (Agent.getCurrentBrowserState) -/

/-- The `currentTabIndex` computed by `Agent.getCurrentBrowserState`:
`pages.findIndex(async p => ...)`.  The predicate is an async function, so it
returns a Promise object; a Promise is truthy, so `findIndex` matches the
first page unconditionally — the visibility probe inside is never awaited.
The result is 0 whenever any page is open, and -1 otherwise. -/
def currentTabIndexCode (tabs : List Tab) : Int :=
  if tabs.isEmpty then -1 else 0

/-- The index the spec describes for a HistoryRecord: the index, within the
snapshot's tab list, of the tab that is actually active (visible) at record
time.  This definition follows the spec's words, for comparison with
`currentTabIndexCode`. -/
def specActiveTabIndex (tabs : List Tab) : Option Nat :=
  tabs.findIdx? (fun t => !t.hidden)

structure TabInfo where
  url : String
  title : String
deriving DecidableEq, Repr

structure BrowserSnapshot where
  url : String
  title : String
  currentTabIndex : Int
  tabs : List TabInfo
  content : String
deriving DecidableEq, Repr

/-- `Agent.getCurrentBrowserState`: current page's url/title (empty when
null), the findIndex-computed current tab index, the `{url, title}` list of
all open pages, and the sanitized content of the current page. -/
def getCurrentBrowserState (b : BrowserState) : BrowserSnapshot :=
  { url := ((getCurrentPage b).map (fun t => t.url)).getD ""
    title := ((getCurrentPage b).map (fun t => t.title)).getD ""
    currentTabIndex := currentTabIndexCode b.tabs
    tabs := b.tabs.map (fun t => ⟨t.url, t.title⟩)
    content := pageContent b }

/-! ## History records (Agent.HistoryRecord, createHistoryMessage) -/

/-- One `{name, args, success, result}` entry of a HistoryRecord.
The wall-clock timestamp (`new Date()`) is external I/O and not modelled. -/
structure RecordedAction (α : Type) where
  name : String
  args : List (String × α)
  success : Bool
  result : Option α
deriving DecidableEq, Repr

structure HistoryRecord (α : Type) where
  tabs : List TabInfo
  currentTabIndex : Int
  state : PlanState
  actions : List (RecordedAction α)
deriving DecidableEq, Repr

/-- The "Current Tab Index" value rendered by `createHistoryMessage`:
`${currentTabIndex + 1}`. -/
def renderedCurrentTabIndex {α : Type} (r : HistoryRecord α) : Int :=
  r.currentTabIndex + 1

/-! ## Action dispatch loop (Agent.step, lines 289-324) -/

/-- The `for (const {name, args} of response.actions)` loop: before each
invocation check `_running` and break; resolve the action by name, on a miss
log, advance `i` and continue (leaving slot `i` of `actionResults` unset,
modelled as `none`); on a hit run the callback and store its settled outcome
at slot `i`.  Returns the agent state after the loop together with the
`actionResults` array (a `none` is an unset slot; slots past a break are
absent entirely, which is indistinguishable from unset when indexed). -/
def execActions {α : Type} (reg : Registry α) :
    AgentState → List (PlanAction α) → AgentState × List (Option (InvRes α))
  | s, [] => (s, [])
  | s, pa :: rest =>
      if s.running then
        match reg pa.name with
        | none =>
            let next := execActions reg s rest
            (next.1, none :: next.2)
        | some act =>
            let r := runCallback act pa s
            let next := execActions reg r.1 rest
            (next.1, some r.2 :: next.2)
      else (s, [])

/-- Reference executor: every invocation runs and its settled outcome is
recorded at its slot, with no break and no skipping.  A plan entry whose name
does not resolve gets a placeholder `{success := false, result := null}`
slot; the comparison theorems only use this executor under the hypothesis
that every name resolves. -/
def execAll {α : Type} (reg : Registry α) :
    AgentState → List (PlanAction α) → AgentState × List (InvRes α)
  | s, [] => (s, [])
  | s, pa :: rest =>
      match reg pa.name with
      | none =>
          let next := execAll reg s rest
          (next.1, ⟨false, none⟩ :: next.2)
      | some act =>
          let r := runCallback act pa s
          let next := execAll reg r.1 rest
          (next.1, r.2 :: next.2)

/-! ## History record construction (Agent.step, lines 326-338) -/

/-- `response.actions.map(({name, args}, index) => ({name, args,
success: actionResults[index].success, result: actionResults[index].result}))`.
Indexing an unset or absent slot yields `undefined`, and reading `.success`
of `undefined` throws a TypeError; the throw propagates out of the `.then`
callback, so the whole construction yields nothing (`none`). -/
def buildRecordActions {α : Type} :
    List (PlanAction α) → List (Option (InvRes α)) →
    Option (List (RecordedAction α))
  | [], _ => some []
  | pa :: rest, some r :: rs =>
      (buildRecordActions rest rs).map
        (fun tail => ⟨pa.name, pa.args, r.success, r.result⟩ :: tail)
  | _ :: _, none :: _ => none
  | _ :: _, [] => none

/-! ## Step engine (Agent.step) -/

/-- Classification of a failed completion request in `step`'s catch branch:
an `OpenAI.APIError` with code `rate_limit_exceeded` or
`token_limit_exceeded`, some other API error, or a non-API runtime error
(which is also where a TypeError thrown while building the history record
lands). -/
inductive ErrClass where
  | rateLimit
  | tokenLimit
  | otherApi
  | runtimeErr
deriving DecidableEq, Repr

/-- The delay chosen by the catch branch: 60000ms for `rate_limit_exceeded`,
otherwise the initial 1000ms (the `token_limit_exceeded` branch stops the
agent but leaves `delay` at 1000). -/
def errorDelayMs : ErrClass → Nat
  | .rateLimit => 60000
  | _ => 1000

/-- The outcome of the completion round trip, as `step` observes it: the
request failed with a classified error, or it succeeded and `JSON.parse` of
the response text produced a plan (`some`) or threw (`none`).  The transport
and the JSON parser are external collaborators. -/
inductive StepInput (α : Type) where
  | requestFailure : ErrClass → StepInput α
  | response : Option (Plan α) → StepInput α
deriving DecidableEq, Repr

/-- What one `step()` call did: the agent state afterwards, the history
record it appended (if any), and how long it slept before returning
(0 when no sleep call was reached). -/
structure StepOutput (α : Type) where
  state : AgentState
  newRecord : Option (HistoryRecord α)
  delayMs : Nat
deriving DecidableEq, Repr

/-- `Agent.step`.  On request failure, classify: `token_limit_exceeded` sets
`_running` to false; the branch sleeps its computed delay and appends
nothing.  On a response whose text fails to parse as JSON, log and return
(no record, no sleep).  On a parsed plan, run the action loop, then build
the record entries from `actionResults`; if an unset slot makes that throw,
the error lands in the same catch branch (non-API error: 1000ms sleep, no
record); otherwise append one HistoryRecord built from a fresh post-action
browser snapshot and the plan's state block. -/
def stepModel {α : Type} (reg : Registry α) (input : StepInput α)
    (s : AgentState) : StepOutput α :=
  match input with
  | .requestFailure c =>
      { state := { s with running := if c = ErrClass.tokenLimit then false
                                     else s.running }
        newRecord := none
        delayMs := errorDelayMs c }
  | .response none => { state := s, newRecord := none, delayMs := 0 }
  | .response (some plan) =>
      let ex := execActions reg s plan.actions
      match buildRecordActions plan.actions ex.2 with
      | some recActs =>
          let snap := getCurrentBrowserState ex.1.browser
          { state := ex.1
            newRecord := some { tabs := snap.tabs
                                currentTabIndex := snap.currentTabIndex
                                state := plan.state
                                actions := recActs }
            delayMs := 0 }
      | none => { state := ex.1, newRecord := none, delayMs := 1000 }

/-! ## Control loop (Agent.start, Agent.stop) -/

/-- The `while (this._running && stepCount < this.maxSteps)` loop of
`Agent.start`, with `await this.step().finally(() => stepCount++)` as the
body.  `remaining = maxSteps - stepCount` is the structural recursion
measure, so `remaining = 0` is exactly `stepCount >= maxSteps`.  Returns the
state after the loop and the list of step indices that were attempted (the
`finally` increments the counter for every attempt). -/
def runLoop {α : Type} (reg : Registry α) (inputs : Nat → StepInput α) :
    AgentState → Nat → Nat → AgentState × List Nat
  | s, _, 0 => (s, [])
  | s, stepCount, remaining + 1 =>
      if s.running then
        let next := runLoop reg inputs
          (stepModel reg (inputs stepCount) s).state (stepCount + 1) remaining
        (next.1, stepCount :: next.2)
      else (s, [])

/-- Result of one `start()` call: the final agent state, the indices of the
step attempts the loop made, and how many times `stop()` was called. -/
structure RunResult where
  final : AgentState
  executedSteps : List Nat
  stopCalls : Nat
deriving DecidableEq, Repr

/-- `Agent.start`: a no-op if already running; otherwise set `_running`,
run the loop from `stepCount = 0`, and on loop exit call `stop()` once
(`stop` sets `_running` to false and fires the stopped event; the
browser-close / debug-page side of `stop` is external I/O) and dispatch the
completed event. -/
def startModel {α : Type} (reg : Registry α) (inputs : Nat → StepInput α)
    (s : AgentState) (maxSteps : Nat) : RunResult :=
  if s.running then ⟨s, [], 0⟩
  else
    let run := runLoop reg inputs { s with running := true } 0 maxSteps
    ⟨{ run.1 with running := false }, run.2, 1⟩

/-! ## Action registration (Agent.DefineAction, Agent constructor) -/

/-- JS `Map.set`: overwrite in place when the key is present, else append. -/
def mapSet {β : Type} (m : List (String × β)) (k : String) (v : β) :
    List (String × β) :=
  if m.any (fun kv => kv.1 = k) then
    m.map (fun kv => if kv.1 = k then (k, v) else kv)
  else m ++ [(k, v)]

/-- The class-level `Agent.pendingActions` table. -/
structure AgentClassState (β : Type) where
  pendingActions : List (String × β)
deriving DecidableEq, Repr

/-- The decorator `Agent.DefineAction`: computed over the method it
decorates, it stores the action (parameter descriptors, description,
callback) into the class-level pending table under the method name. -/
def DefineAction {β : Type} (cls : AgentClassState β) (methodName : String)
    (action : β) : AgentClassState β :=
  ⟨mapSet cls.pendingActions methodName action⟩

/-- The constructor's registration loop:
`for (const [name, action] of Agent.pendingActions)` copies each entry into
the instance's `actions` map and deletes it from the class-level table.  A
JS Map has unique keys and deleting the entry just visited never affects the
entries still to be visited, so the loop is structural recursion over the
remaining entries; at the end the pending table holds nothing. -/
def registerPendingLoop {β : Type} :
    List (String × β) → List (String × β) →
    List (String × β) × List (String × β)
  | actions, [] => (actions, [])
  | actions, (n, a) :: rest => registerPendingLoop (mapSet actions n a) rest

/-- The per-instance registry an Agent ends up with. -/
structure AgentInstance (β : Type) where
  actions : List (String × β)
deriving DecidableEq, Repr

/-- The registration part of the Agent constructor: build the instance's
`actions` map by consuming the class-level pending table, and return the
instance together with the class state left behind. -/
def constructAgent {β : Type} (cls : AgentClassState β) :
    AgentInstance β × AgentClassState β :=
  ((⟨(registerPendingLoop [] cls.pendingActions).1⟩ : AgentInstance β),
   ⟨(registerPendingLoop [] cls.pendingActions).2⟩)

/-! ## Concrete instances used by the witness theorems -/

/-- A registry with no actions. -/
def emptyReg : Registry Nat := fun _ => none

/-- The `done` action: sets `_running` to false and returns nothing. -/
def doneAct : ActionRT Nat :=
  ⟨[], "Marks the task as complete, breaking the execution loop.",
   fun _ st => (⟨false, st.browser⟩, .resolved none)⟩

/-- A registry holding only `done`. -/
def doneReg : Registry Nat := fun n =>
  match n with
  | "done" => some doneAct
  | _ => none

/-- An action whose callback resolves with 1 and leaves the state alone. -/
def okAct : ActionRT Nat := ⟨[], "succeeds", fun _ st => (st, .resolved (some 1))⟩

/-- An action whose callback rejects with the error value 7 and leaves the
state alone. -/
def boomAct : ActionRT Nat := ⟨[], "always throws", fun _ st => (st, .rejected 7)⟩

/-- A registry with a succeeding and a failing action. -/
def mixedReg : Registry Nat := fun n =>
  match n with
  | "ok1" => some okAct
  | "boom" => some boomAct
  | _ => none

/-- Three invocations: succeed, fail, succeed. -/
def mixedActs : List (PlanAction Nat) := [⟨"ok1", []⟩, ⟨"boom", []⟩, ⟨"ok1", []⟩]

/-- A registry with one benign action taking one parameter. -/
def noopReg : Registry Nat := fun n =>
  match n with
  | "noop" => some ⟨[("x", "Number")], "does nothing",
      fun _ st => (st, .resolved (some 5))⟩
  | _ => none

/-- A one-invocation plan naming `noop`. -/
def noopPlan : Plan Nat := ⟨⟨GoalEval.success, "", "", ""⟩, [⟨"noop", [("x", 3)]⟩]⟩

/-- The record `step` appends for `noopPlan` on an empty browser. -/
def noopRec : HistoryRecord Nat :=
  ⟨[], -1, ⟨GoalEval.success, "", "", ""⟩, [⟨"noop", [("x", 3)], true, some 5⟩]⟩

/-- A plan that invokes `done` twice: `_running` turns false after the first
invocation, so the second is never issued. -/
def doneTwicePlan : Plan Nat :=
  ⟨⟨GoalEval.unknown, "", "", ""⟩, [⟨"done", []⟩, ⟨"done", []⟩]⟩

/-- A trivial plan with no actions. -/
def emptyPlan : Plan Nat := ⟨⟨GoalEval.unknown, "", "", ""⟩, []⟩

/-- A browser whose only tab is hidden (no tab passes the visibility
predicate), though the tab does contain the selector `#q`. -/
def hiddenOnlyBrowser : BrowserState :=
  ⟨[⟨"https://a.example", "A", true, ["#q"], "body", 0⟩]⟩

/-- A hidden first tab. -/
def hiddenDemoTab : Tab := ⟨"https://a.example", "A", true, [], "", 0⟩

/-- A visible second tab. -/
def visibleDemoTab : Tab := ⟨"https://b.example", "B", false, [], "", 0⟩

/-- Two tabs: the hidden one enumerates first, the visible one second. -/
def twoTabBrowser : BrowserState := ⟨[hiddenDemoTab, visibleDemoTab]⟩

/-- A completion transcript that always fails with `token_limit_exceeded`. -/
def tokInputs : Nat → StepInput Nat :=
  fun _ => StepInput.requestFailure ErrClass.tokenLimit

/-- A completion transcript whose response text never parses as JSON. -/
def parseFailInputs : Nat → StepInput Nat := fun _ => StepInput.response none

/-! ## Helper lemmas -/

/-- If the `actionResults` array has fewer slots than the plan has actions,
indexing past its end throws, so no record-entry list is produced. -/
theorem buildRecordActions_none_of_short {α : Type} (acts : List (PlanAction α)) :
    ∀ results : List (Option (InvRes α)), results.length < acts.length →
      buildRecordActions acts results = none := by
  induction acts with
  | nil => intro results h; simp at h
  | cons pa rest ih =>
      intro results h
      match results with
      | [] => rfl
      | none :: rs => rfl
      | some r :: rs =>
          have h' : rs.length < rest.length := by simpa using h
          simp [buildRecordActions, ih rs h']

/-- When record-entry construction succeeds, it pairs plan entry `i` with
result slot `i`, and every slot was set. -/
theorem buildRecordActions_some_spec {α : Type} (acts : List (PlanAction α)) :
    ∀ (results : List (Option (InvRes α))) (recActs : List (RecordedAction α)),
      buildRecordActions acts results = some recActs →
      recActs.length = acts.length ∧
      ∀ i, i < acts.length →
        ∃ pa r, acts.get? i = some pa ∧ results.get? i = some (some r) ∧
          recActs.get? i = some ⟨pa.name, pa.args, r.success, r.result⟩ := by
  induction acts with
  | nil =>
      intro results recActs h
      simp [buildRecordActions] at h
      subst h
      exact ⟨rfl, fun i hi => absurd hi (by simp)⟩
  | cons pa rest ih =>
      intro results recActs h
      match results with
      | [] => simp [buildRecordActions] at h
      | none :: rs => simp [buildRecordActions] at h
      | some r :: rs =>
          simp only [buildRecordActions, Option.map_eq_some'] at h
          obtain ⟨tail, htail, hcons⟩ := h
          obtain ⟨hlen, hslots⟩ := ih rs tail htail
          subst hcons
          refine ⟨by simp [hlen], ?_⟩
          intro i hi
          match i with
          | 0 => exact ⟨pa, r, rfl, rfl, rfl⟩
          | n + 1 =>
              have hn : n < rest.length := by simpa using hi
              obtain ⟨pa', r', h1, h2, h3⟩ := hslots n hn
              exact ⟨pa', r', h1, h2, h3⟩

/-- The loop makes at most `remaining` further step attempts. -/
theorem runLoop_length_le {α : Type} (reg : Registry α)
    (inputs : Nat → StepInput α) :
    ∀ (R : Nat) (s : AgentState) (c : Nat),
      (runLoop reg inputs s c R).2.length ≤ R := by
  intro R
  induction R with
  | zero => intro s c; simp [runLoop]
  | succ R ih =>
      intro s c
      by_cases hr : s.running
      · simpa [runLoop, hr] using ih _ (c + 1)
      · simp [runLoop, hr]

/-- The attempted step indices are consecutive, starting at the initial
counter value: each attempt is counted exactly once. -/
theorem runLoop_steps_eq_range {α : Type} (reg : Registry α)
    (inputs : Nat → StepInput α) :
    ∀ (R : Nat) (s : AgentState) (c : Nat),
      (runLoop reg inputs s c R).2 =
        List.range' c (runLoop reg inputs s c R).2.length := by
  intro R
  induction R with
  | zero => intro s c; simp [runLoop]
  | succ R ih =>
      intro s c
      by_cases hr : s.running
      · simp only [runLoop, hr, if_true]
        rw [List.length_cons, List.range'_succ]
        rw [← ih _ (c + 1)]
      · simp [runLoop, hr]

/-- Once `_running` is false the loop makes no further attempts. -/
theorem runLoop_not_running {α : Type} (reg : Registry α)
    (inputs : Nat → StepInput α) (R : Nat) (s : AgentState) (c : Nat)
    (h : s.running = false) : runLoop reg inputs s c R = (s, []) := by
  cases R <;> simp [runLoop, h]

/-- A step whose completion request fails as `token_limit_exceeded` leaves
`_running` false. -/
theorem stepModel_tokenLimit_stops {α : Type} (reg : Registry α)
    (s : AgentState) :
    (stepModel reg (StepInput.requestFailure ErrClass.tokenLimit) s).state.running
      = false := by
  simp [stepModel]

/-- If step `k` of the loop fails as `token_limit_exceeded`, every attempted
step index is at most `k`: nothing runs after it. -/
theorem runLoop_tokenLimit_last {α : Type} (reg : Registry α)
    (inputs : Nat → StepInput α) :
    ∀ (R : Nat) (s : AgentState) (c k : Nat),
      inputs k = StepInput.requestFailure ErrClass.tokenLimit →
      k ∈ (runLoop reg inputs s c R).2 →
      ∀ j ∈ (runLoop reg inputs s c R).2, j ≤ k := by
  intro R
  induction R with
  | zero => intro s c k _ hk; simp [runLoop] at hk
  | succ R ih =>
      intro s c k htok hk
      by_cases hr : s.running
      · rcases (by simpa [runLoop, hr] using hk) with hck | hkrest
        · have htok' : inputs c = StepInput.requestFailure ErrClass.tokenLimit := by
            rw [← hck]; exact htok
          have hrun0 : (stepModel reg (inputs c) s).state.running = false := by
            rw [htok']; exact stepModel_tokenLimit_stops reg s
          have hrest :
              runLoop reg inputs (stepModel reg (inputs c) s).state (c + 1) R
                = ((stepModel reg (inputs c) s).state, []) :=
            runLoop_not_running reg inputs R _ (c + 1) hrun0
          intro j hj
          have hjc : j = c := by simpa [runLoop, hr, hrest] using hj
          omega
        · intro j hj
          rcases (by simpa [runLoop, hr] using hj) with hjc | hjrest
          · have hrange := runLoop_steps_eq_range reg inputs R
              (stepModel reg (inputs c) s).state (c + 1)
            rw [hrange] at hkrest
            have hge := (List.mem_range'_1.mp hkrest).1
            omega
          · exact ih _ (c + 1) k htok hkrest j hjrest
      · simp [runLoop, hr] at hk

/-- The reference executor records exactly one outcome per plan entry. -/
theorem execAll_length {α : Type} (reg : Registry α) :
    ∀ (acts : List (PlanAction α)) (s : AgentState),
      (execAll reg s acts).2.length = acts.length := by
  intro acts
  induction acts with
  | nil => intro s; rfl
  | cons pa rest ih =>
      intro s
      cases hact : reg pa.name <;> simp [execAll, hact, ih]

/-- While `_running` stays true and every plan entry resolves, the dispatch
loop behaves exactly like the reference executor: every invocation runs and
its outcome — success or failure — lands in its own slot. -/
theorem execActions_eq_execAll {α : Type} (reg : Registry α) :
    ∀ (acts : List (PlanAction α)) (s : AgentState),
      s.running = true →
      (∀ pa ∈ acts, (reg pa.name).isSome = true) →
      (∀ pa ∈ acts, ∀ act, reg pa.name = some act →
        ∀ st : AgentState,
          ((act.callback (objectValues pa.args) st).1).running = st.running) →
      execActions reg s acts =
        ((execAll reg s acts).1, (execAll reg s acts).2.map some) := by
  intro acts
  induction acts with
  | nil => intro s _ _ _; rfl
  | cons pa rest ih =>
      intro s hrun hres hkeep
      have hpa : (reg pa.name).isSome = true := hres pa (by simp)
      obtain ⟨act, hact⟩ := Option.isSome_iff_exists.mp hpa
      have hrun' : ((runCallback act pa s).1).running = true := by
        rw [runCallback]
        rw [hkeep pa (by simp) act hact s]
        exact hrun
      have ihx := ih (runCallback act pa s).1 hrun'
        (fun pa' h' => hres pa' (by simp [h']))
        (fun pa' h' => hkeep pa' (by simp [h']))
      simp [execActions, execAll, hrun, hact, ihx]

/-- `Map.set` with a key absent from the map appends the entry. -/
theorem mapSet_of_not_mem {β : Type} (m : List (String × β)) (k : String)
    (v : β) (h : ∀ kv ∈ m, kv.1 ≠ k) : mapSet m k v = m ++ [(k, v)] := by
  unfold mapSet
  rw [if_neg]
  simp only [List.any_eq_true, decide_eq_true_eq, not_exists]
  intro kv
  intro hand
  exact h kv hand.1 hand.2

/-- With pairwise-distinct keys (the Map invariant) and an accumulator whose
keys avoid the pending table, the constructor's registration loop copies the
whole pending table onto the accumulator and leaves nothing pending. -/
theorem registerPendingLoop_eq {β : Type} :
    ∀ (pend acc : List (String × β)),
      (∀ kv ∈ acc, ∀ kv2 ∈ pend, kv.1 ≠ kv2.1) →
      (pend.map Prod.fst).Nodup →
      registerPendingLoop acc pend = (acc ++ pend, []) := by
  intro pend
  induction pend with
  | nil => intro acc _ _; simp [registerPendingLoop]
  | cons p rest ih =>
      intro acc hdisj hnodup
      obtain ⟨n, a⟩ := p
      have h1 : mapSet acc n a = acc ++ [(n, a)] :=
        mapSet_of_not_mem _ _ _ (fun kv hkv => hdisj kv hkv (n, a) (by simp))
      have hnodup' : (rest.map Prod.fst).Nodup := by
        simp [List.nodup_cons] at hnodup
        exact hnodup.2
      have hn : n ∉ rest.map Prod.fst := by
        simp [List.nodup_cons] at hnodup
        simpa using hnodup.1
      have hdisj' : ∀ kv ∈ acc ++ [(n, a)], ∀ kv2 ∈ rest, kv.1 ≠ kv2.1 := by
        intro kv hkv kv2 h2
        rcases List.mem_append.mp hkv with hmem | hmem
        · exact hdisj kv hmem kv2 (by simp [h2])
        · have : kv = (n, a) := by simpa using hmem
          subst this
          intro he
          have hne : n = kv2.1 := he
          exact hn (hne ▸ List.mem_map_of_mem Prod.fst h2)
      have : registerPendingLoop acc ((n, a) :: rest)
          = registerPendingLoop (mapSet acc n a) rest := rfl
      rw [this, h1, ih (acc ++ [(n, a)]) hdisj' hnodup']
      simp

/-! ## Claim theorems -/

/-- C1: the claim says the callback receives its arguments mapped by the
action's declared parameter order — with declared parameters `(a, b)` and
plan args `{b: 2, a: 1}` it would receive `(1, 2)`.  The code spreads
`Object.values(args)` instead, so the callback receives the values in the
plan's key order `(2, 1)`, diverging from the declared-order binding the
spec (and the registration machinery built on getParamNames) intends. -/
theorem c1_callback_args_in_plan_key_order :
    getParamNames "async demo(a, b)" = ["a", "b"] ∧
    callbackArgValues (⟨"demo", [("b", 2), ("a", 1)]⟩ : PlanAction Nat)
      = [2, 1] ∧
    specDeclaredOrderBinding ["a", "b"] [("b", (2 : Nat)), ("a", 1)]
      = some [1, 2] ∧
    callbackArgValues (⟨"demo", [("b", 2), ("a", 1)]⟩ : PlanAction Nat)
      ≠ [1, 2] := by
  refine ⟨by decide, rfl, rfl, by decide⟩

/-- C2: whenever a step appends a HistoryRecord, the recorded action-result
list has exactly the plan's length and slot i carries the success flag and
result of invocation i. -/
theorem c2_record_aligned_with_plan {α : Type} (reg : Registry α)
    (plan : Plan α) (s : AgentState) (rec : HistoryRecord α)
    (h : (stepModel reg (StepInput.response (some plan)) s).newRecord
      = some rec) :
    rec.actions.length = plan.actions.length ∧
    ∀ i, i < plan.actions.length →
      ∃ pa r, plan.actions.get? i = some pa ∧
        (execActions reg s plan.actions).2.get? i = some (some r) ∧
        rec.actions.get? i = some ⟨pa.name, pa.args, r.success, r.result⟩ := by
  have hx := h
  simp only [stepModel] at hx
  cases hb : buildRecordActions plan.actions
      (execActions reg s plan.actions).2 with
  | none => rw [hb] at hx; simp at hx
  | some recActs =>
      rw [hb] at hx
      simp only [Option.some.injEq] at hx
      have hActs : rec.actions = recActs := by rw [← hx]
      obtain ⟨hlen, hslots⟩ :=
        buildRecordActions_some_spec plan.actions _ recActs hb
      constructor
      · rw [hActs]; exact hlen
      · intro i hi
        obtain ⟨pa, r, h1, h2, h3⟩ := hslots i hi
        exact ⟨pa, r, h1, h2, by rw [hActs]; exact h3⟩

/-- Witness for C2 at a one-action plan on an empty browser. -/
theorem c2_record_aligned_with_plan_witness :
    ((stepModel noopReg (StepInput.response (some noopPlan))
        ⟨true, ⟨[]⟩⟩).newRecord = some noopRec) ∧
    (noopRec.actions.length = noopPlan.actions.length ∧
     ∀ i, i < noopPlan.actions.length →
       ∃ pa r, noopPlan.actions.get? i = some pa ∧
         (execActions noopReg ⟨true, ⟨[]⟩⟩ noopPlan.actions).2.get? i
           = some (some r) ∧
         noopRec.actions.get? i
           = some ⟨pa.name, pa.args, r.success, r.result⟩) :=
  ⟨rfl, c2_record_aligned_with_plan noopReg noopPlan ⟨true, ⟨[]⟩⟩ noopRec rfl⟩

/-- C3: while `_running` stays true and every plan entry resolves, the
dispatch loop runs every invocation and records each settled outcome —
success or failure — independently in its own slot, so one invocation's
failure never prevents the invocations after it from running; a rejected
callback is captured as `{success := false, result := error}`. -/
theorem c3_invocation_failure_isolated {α : Type} (reg : Registry α)
    (s : AgentState) (acts : List (PlanAction α))
    (hrun : s.running = true)
    (hres : ∀ pa ∈ acts, (reg pa.name).isSome = true)
    (hkeep : ∀ pa ∈ acts, ∀ act, reg pa.name = some act →
      ∀ st : AgentState,
        ((act.callback (objectValues pa.args) st).1).running = st.running) :
    execActions reg s acts =
      ((execAll reg s acts).1, (execAll reg s acts).2.map some) ∧
    (execAll reg s acts).2.length = acts.length ∧
    (∀ e : α, toInvRes (CbOutcome.rejected e) = ⟨false, some e⟩) :=
  ⟨execActions_eq_execAll reg acts s hrun hres hkeep,
   execAll_length reg acts s, fun _ => rfl⟩

/-- Witness for C3: three invocations where the middle one rejects; the
first and third still execute and all three are recorded. -/
theorem c3_invocation_failure_isolated_witness :
    ((⟨true, ⟨[]⟩⟩ : AgentState).running = true) ∧
    (∀ pa ∈ mixedActs, (mixedReg pa.name).isSome = true) ∧
    (execActions mixedReg ⟨true, ⟨[]⟩⟩ mixedActs =
       ((execAll mixedReg ⟨true, ⟨[]⟩⟩ mixedActs).1,
        (execAll mixedReg ⟨true, ⟨[]⟩⟩ mixedActs).2.map some) ∧
     (execAll mixedReg ⟨true, ⟨[]⟩⟩ mixedActs).2.length = mixedActs.length ∧
     (∀ e : Nat, toInvRes (CbOutcome.rejected e) = ⟨false, some e⟩)) := by
  refine ⟨rfl, by decide,
    c3_invocation_failure_isolated mixedReg ⟨true, ⟨[]⟩⟩ mixedActs rfl
      (by decide) ?_⟩
  intro pa hpa act hact st
  have hpa' : pa = (⟨"ok1", []⟩ : PlanAction Nat) ∨ pa = ⟨"boom", []⟩ ∨
      pa = ⟨"ok1", []⟩ := by
    simpa [mixedActs] using hpa
  rcases hpa' with rfl | rfl | rfl
  · have h1 : mixedReg "ok1" = some okAct := rfl
    rw [h1] at hact
    cases Option.some.inj hact
    rfl
  · have h1 : mixedReg "boom" = some boomAct := rfl
    rw [h1] at hact
    cases Option.some.inj hact
    rfl
  · have h1 : mixedReg "ok1" = some okAct := rfl
    rw [h1] at hact
    cases Option.some.inj hact
    rfl

/-- C4: the start loop makes at most `maxSteps` step attempts no matter what
the steps do (in particular even if `_running` never turns false), and the
attempt indices are consecutive from 0 — every attempt, failed or aborted,
counts against the bound. -/
theorem c4_loop_bounded_by_max_steps {α : Type} (reg : Registry α)
    (inputs : Nat → StepInput α) (s : AgentState) (K : Nat) :
    (startModel reg inputs s K).executedSteps.length ≤ K ∧
    (startModel reg inputs s K).executedSteps =
      List.range' 0 (startModel reg inputs s K).executedSteps.length := by
  by_cases hr : s.running
  · simp [startModel, hr]
  · constructor
    · simpa [startModel, hr] using
        runLoop_length_le reg inputs K { s with running := true } 0
    · simpa [startModel, hr] using
        runLoop_steps_eq_range reg inputs K { s with running := true } 0

/-- C5: if step k's completion request fails as `token_limit_exceeded`, the
run makes no step attempt after k, `stop()` is called exactly once by the
loop exit, and the final state has `_running` false. -/
theorem c5_token_limit_terminal {α : Type} (reg : Registry α)
    (inputs : Nat → StepInput α) (s : AgentState) (K k : Nat)
    (hk : k ∈ (startModel reg inputs s K).executedSteps)
    (htok : inputs k = StepInput.requestFailure ErrClass.tokenLimit) :
    (∀ j ∈ (startModel reg inputs s K).executedSteps, j ≤ k) ∧
    (startModel reg inputs s K).stopCalls = 1 ∧
    (startModel reg inputs s K).final.running = false := by
  by_cases hr : s.running
  · simp [startModel, hr] at hk
  · have hk' : k ∈ (runLoop reg inputs { s with running := true } 0 K).2 := by
      simpa [startModel, hr] using hk
    refine ⟨?_, by simp [startModel, hr], by simp [startModel, hr]⟩
    intro j hj
    have hj' : j ∈ (runLoop reg inputs { s with running := true } 0 K).2 := by
      simpa [startModel, hr] using hj
    exact runLoop_tokenLimit_last reg inputs K _ 0 k htok hk' j hj'

/-- Witness for C5: a 3-step budget whose first request already fails with
`token_limit_exceeded` — exactly one step runs. -/
theorem c5_token_limit_terminal_witness :
    (0 ∈ (startModel emptyReg tokInputs ⟨false, ⟨[]⟩⟩ 3).executedSteps) ∧
    ((∀ j ∈ (startModel emptyReg tokInputs ⟨false, ⟨[]⟩⟩ 3).executedSteps,
        j ≤ 0) ∧
     (startModel emptyReg tokInputs ⟨false, ⟨[]⟩⟩ 3).stopCalls = 1 ∧
     (startModel emptyReg tokInputs ⟨false, ⟨[]⟩⟩ 3).final.running = false) :=
  ⟨by decide,
   c5_token_limit_terminal emptyReg tokInputs ⟨false, ⟨[]⟩⟩ 3 0 (by decide) rfl⟩

/-- C6: a response whose text fails to parse as a JSON plan leaves the agent
state untouched, appends no history record and performs no delay, and the
loop proceeds to its next iteration with the same state. -/
theorem c6_parse_failure_no_record {α : Type} (reg : Registry α)
    (inputs : Nat → StepInput α) (s : AgentState) (c R : Nat)
    (hc : inputs c = StepInput.response none) (hrun : s.running = true) :
    stepModel reg (StepInput.response none) s = ⟨s, none, 0⟩ ∧
    runLoop reg inputs s c (R + 1) =
      ((runLoop reg inputs s (c + 1) R).1,
       c :: (runLoop reg inputs s (c + 1) R).2) := by
  refine ⟨rfl, ?_⟩
  simp [runLoop, hrun, hc, stepModel]

/-- Witness for C6 on a concrete always-unparsable transcript. -/
theorem c6_parse_failure_no_record_witness :
    (parseFailInputs 0 = StepInput.response none) ∧
    ((⟨true, ⟨[]⟩⟩ : AgentState).running = true) ∧
    (stepModel emptyReg (StepInput.response none) ⟨true, ⟨[]⟩⟩
        = ⟨⟨true, ⟨[]⟩⟩, none, 0⟩ ∧
     runLoop emptyReg parseFailInputs ⟨true, ⟨[]⟩⟩ 0 (1 + 1) =
       ((runLoop emptyReg parseFailInputs ⟨true, ⟨[]⟩⟩ (0 + 1) 1).1,
        0 :: (runLoop emptyReg parseFailInputs ⟨true, ⟨[]⟩⟩ (0 + 1) 1).2)) :=
  ⟨rfl, rfl,
   c6_parse_failure_no_record emptyReg parseFailInputs ⟨true, ⟨[]⟩⟩ 0 1 rfl rfl⟩

/-- C7 counterexample: with no tab passing the visibility predicate, the
type operation (`inputText`) does raise — it rejects with an "Element not
found" error instead of degrading to a no-op, refuting the claim that every
dependent operation degrades rather than raising. -/
theorem c7_input_text_raises_counterexample :
    getCurrentPage hiddenOnlyBrowser = none ∧
    inputText hiddenOnlyBrowser "#q" "hello"
      = JsResult.err "Element #q not found" ∧
    (inputText hiddenOnlyBrowser "#q" "hello").isErr = true :=
  ⟨rfl, rfl, rfl⟩

/-- C7 amended: when no tab matches the visibility predicate, element
selection, click, key-press, scroll and content extraction degrade to
empty/no-op results, but text input raises an "Element not found" error
(which the dispatch loop then captures per-invocation). -/
theorem c7_no_page_degrades_except_input_text (b : BrowserState)
    (sel key value : String) (amt : Int)
    (h : getCurrentPage b = none) :
    selectElementHandle b sel = JsResult.ok none ∧
    clickElement b sel = JsResult.ok () ∧
    sendKey b sel key = JsResult.ok () ∧
    scroll b amt = (b, JsResult.ok ()) ∧
    pageContent b = "" ∧
    inputText b sel value
      = JsResult.err ("Element " ++ sel ++ " not found") := by
  refine ⟨?_, ?_, ?_, ?_, ?_, ?_⟩ <;>
    simp [selectElementHandle, clickElement, sendKey, scroll, pageContent,
      inputText, h]

/-- Witness for the amended C7 on a browser whose only tab is hidden. -/
theorem c7_no_page_degrades_except_input_text_witness :
    (getCurrentPage hiddenOnlyBrowser = none) ∧
    (selectElementHandle hiddenOnlyBrowser "#x" = JsResult.ok none ∧
     clickElement hiddenOnlyBrowser "#x" = JsResult.ok () ∧
     sendKey hiddenOnlyBrowser "#x" "Enter" = JsResult.ok () ∧
     scroll hiddenOnlyBrowser 5 = (hiddenOnlyBrowser, JsResult.ok ()) ∧
     pageContent hiddenOnlyBrowser = "" ∧
     inputText hiddenOnlyBrowser "#x" "hi"
       = JsResult.err ("Element " ++ "#x" ++ " not found")) :=
  ⟨rfl,
   c7_no_page_degrades_except_input_text hiddenOnlyBrowser "#x" "Enter" "hi" 5
     rfl⟩

/-- C8: on a browser where only the second tab is visible, the appended
record's `currentTabIndex` is 0 — `findIndex` over an async predicate
matches the first tab unconditionally — while the tab that is actually
active sits at index 1, so the recorded index is not the active tab's index
(the history message then renders the recorded index plus one). -/
theorem c8_recorded_tab_index_not_active :
    getCurrentPage twoTabBrowser = some visibleDemoTab ∧
    specActiveTabIndex twoTabBrowser.tabs = some 1 ∧
    ((stepModel emptyReg (StepInput.response (some emptyPlan))
        ⟨true, twoTabBrowser⟩).newRecord.map
      (fun r => r.currentTabIndex)) = some 0 ∧
    ((stepModel emptyReg (StepInput.response (some emptyPlan))
        ⟨true, twoTabBrowser⟩).newRecord.map
      (fun r => renderedCurrentTabIndex r)) = some 1 ∧
    ((0 : Int) ≠ 1) := by
  refine ⟨rfl, rfl, rfl, rfl, by decide⟩

/-- C9: when `_running` turns false before the loop issued every plan
invocation, the `actionResults` array is shorter than the plan, building the
record entries throws, the error lands in the catch branch, and the step
ends with no history record and a 1000ms sleep. -/
theorem c9_early_stop_no_record {α : Type} (reg : Registry α)
    (s : AgentState) (plan : Plan α)
    (h : (execActions reg s plan.actions).2.length < plan.actions.length) :
    stepModel reg (StepInput.response (some plan)) s =
      ⟨(execActions reg s plan.actions).1, none, 1000⟩ := by
  have hb := buildRecordActions_none_of_short plan.actions _ h
  simp [stepModel, hb]

/-- Witness for C9: `done` in the first of two slots stops the loop before
the second invocation, so the step yields no record and sleeps 1000ms. -/
theorem c9_early_stop_no_record_witness :
    ((execActions doneReg ⟨true, ⟨[]⟩⟩ doneTwicePlan.actions).2.length <
        doneTwicePlan.actions.length) ∧
    stepModel doneReg (StepInput.response (some doneTwicePlan)) ⟨true, ⟨[]⟩⟩ =
      ⟨(execActions doneReg ⟨true, ⟨[]⟩⟩ doneTwicePlan.actions).1, none,
       1000⟩ :=
  ⟨by decide,
   c9_early_stop_no_record doneReg ⟨true, ⟨[]⟩⟩ doneTwicePlan (by decide)⟩

/-- C10: constructing an Agent consumes the class-level pending table built
by the decorators: the first instance's registry holds every pending action
and the table is left empty, so any instance constructed afterwards starts
with an empty registry. -/
theorem c10_pending_consumed_on_construction {β : Type}
    (pending : List (String × β))
    (hnodup : (pending.map Prod.fst).Nodup) :
    (constructAgent (⟨pending⟩ : AgentClassState β)).1.actions = pending ∧
    (constructAgent (⟨pending⟩ : AgentClassState β)).2.pendingActions = [] ∧
    (constructAgent
      ((constructAgent (⟨pending⟩ : AgentClassState β)).2)).1.actions = [] ∧
    (∀ name : String, ∀ v : β,
      (DefineAction (⟨[]⟩ : AgentClassState β) name v).pendingActions
        = [(name, v)]) := by
  have h := registerPendingLoop_eq pending [] (by simp) hnodup
  refine ⟨?_, ?_, ?_, fun name v => rfl⟩
  · simp [constructAgent, h]
  · simp [constructAgent, h]
  · simp [constructAgent, h, registerPendingLoop]

/-- Witness for C10 with two pending actions. -/
theorem c10_pending_consumed_on_construction_witness :
    ((([("openNewTab", 1), ("done", 2)] :
        List (String × Nat)).map Prod.fst).Nodup) ∧
    ((constructAgent (⟨[("openNewTab", 1), ("done", 2)]⟩ :
        AgentClassState Nat)).1.actions = [("openNewTab", 1), ("done", 2)] ∧
     (constructAgent (⟨[("openNewTab", 1), ("done", 2)]⟩ :
        AgentClassState Nat)).2.pendingActions = [] ∧
     (constructAgent ((constructAgent (⟨[("openNewTab", 1), ("done", 2)]⟩ :
        AgentClassState Nat)).2)).1.actions = [] ∧
     (∀ name : String, ∀ v : Nat,
       (DefineAction (⟨[]⟩ : AgentClassState Nat) name v).pendingActions
         = [(name, v)])) :=
  ⟨by decide,
   c10_pending_consumed_on_construction [("openNewTab", 1), ("done", 2)]
     (by decide)⟩
